import Mathlib

/-!
Verification development for the Sysrai platform core: the pricing
calculators, the credit ledger, project creation, user registration and
the GPU capacity orchestrator, embedded shallowly from the Python source.
Currency amounts (Python floats holding exact decimal values such as
3.00, 0.35, 1.5) are modelled as rationals; all arithmetic performed by
the embedded code on these values is exact in both semantics.
-/

/-- Cost breakdown returned by `PricingEngine.calculate_project_cost`
in `skyreels_film_platform.py` (the keys of the returned dict that the
claims mention). -/
structure EngineCosts where
  video_generation : ℚ
  script_writing : ℚ
  storyboarding : ℚ
  subtotal : ℚ
  rush_fee : ℚ
  quality_fee : ℚ
  total : ℚ
  deriving Repr, DecidableEq

namespace PricingEngine

/-- `BASE_RATES['script_per_minute']` -/
def script_per_minute : ℚ := 1

/-- `BASE_RATES['video_per_minute']` -/
def video_per_minute : ℚ := 3

/-- `BASE_RATES['storyboard_flat']` -/
def storyboard_flat : ℚ := 10

/-- `BASE_RATES['rush_multiplier']` -/
def rush_multiplier : ℚ := 2

/-- `BASE_RATES['premium_quality']` -/
def premium_quality : ℚ := 3/2

/-- Embedding of `PricingEngine.calculate_project_cost`
(`skyreels_film_platform.py`, lines 538-583): the quality fee is added
only when `quality == "premium"`, the rush fee only when `rush` is set,
and the total is the sum of subtotal and the two fees. -/
def calculate_project_cost (duration_minutes : ℤ) (include_script : Bool)
    (include_storyboard : Bool) (quality : String) (rush : Bool) : EngineCosts :=
  let video_generation : ℚ := (duration_minutes : ℚ) * video_per_minute
  let script_writing : ℚ := if include_script then (duration_minutes : ℚ) * script_per_minute else 0
  let storyboarding : ℚ := if include_storyboard then storyboard_flat else 0
  let subtotal : ℚ := video_generation + script_writing + storyboarding
  let quality_fee : ℚ := if quality = "premium" then subtotal * (premium_quality - 1) else 0
  let rush_fee : ℚ := if rush then subtotal * (rush_multiplier - 1) else 0
  let total : ℚ := subtotal + quality_fee + rush_fee
  { video_generation := video_generation
    script_writing := script_writing
    storyboarding := storyboarding
    subtotal := subtotal
    rush_fee := rush_fee
    quality_fee := quality_fee
    total := total }

end PricingEngine

/-- Result of `calculate_project_cost` in `pricing.py`: the `breakdown`
dict fields plus `subtotal`, `quality_multiplier` and `total`. -/
structure PricingResult where
  video : ℚ
  script : ℚ
  storyboard : ℚ
  subtotal : ℚ
  quality_multiplier : ℚ
  total : ℚ
  deriving Repr, DecidableEq

namespace Pricing

/-- `PRICING["quality_multipliers"]` as a partial lookup table
(`pricing.py`, lines 9-13). -/
def quality_multipliers (quality : String) : Option ℚ :=
  if quality = "standard" then some 1
  else if quality = "premium" then some (3/2)
  else if quality = "ultra" then some 2
  else none

/-- Embedding of `calculate_project_cost` (`pricing.py`, lines 50-71):
`total = subtotal * multiplier` with the multiplier looked up from
`PRICING["quality_multipliers"]`, defaulting to 1 for unknown quality
(Python `dict.get(quality, 1.0)`). -/
def calculate_project_cost (duration_minutes : ℤ) (include_script : Bool)
    (include_storyboard : Bool) (quality : String) : PricingResult :=
  let video : ℚ := (duration_minutes : ℚ) * 3
  let script : ℚ := if include_script then (duration_minutes : ℚ) * 1 else 0
  let storyboard : ℚ := if include_storyboard then 10 else 0
  let subtotal : ℚ := video + script + storyboard
  let quality_multiplier : ℚ := (quality_multipliers quality).getD 1
  let total : ℚ := subtotal * quality_multiplier
  { video := video
    script := script
    storyboard := storyboard
    subtotal := subtotal
    quality_multiplier := quality_multiplier
    total := total }

end Pricing

/-- C1: for every pricing input to `PricingEngine.calculate_project_cost`
(any duration, any combination of the script and storyboard flags, any
quality string, rush or not), the returned breakdown satisfies
`total = subtotal + quality_fee + rush_fee` and
`subtotal = video + script + storyboard` exactly; the simpler calculator
in `pricing.py` likewise satisfies the subtotal identity. -/
theorem pricing_breakdown_identities (duration_minutes : ℤ)
    (include_script include_storyboard : Bool) (quality : String) (rush : Bool) :
    (PricingEngine.calculate_project_cost duration_minutes include_script
        include_storyboard quality rush).total =
      (PricingEngine.calculate_project_cost duration_minutes include_script
        include_storyboard quality rush).subtotal +
      (PricingEngine.calculate_project_cost duration_minutes include_script
        include_storyboard quality rush).quality_fee +
      (PricingEngine.calculate_project_cost duration_minutes include_script
        include_storyboard quality rush).rush_fee ∧
    (PricingEngine.calculate_project_cost duration_minutes include_script
        include_storyboard quality rush).subtotal =
      (PricingEngine.calculate_project_cost duration_minutes include_script
        include_storyboard quality rush).video_generation +
      (PricingEngine.calculate_project_cost duration_minutes include_script
        include_storyboard quality rush).script_writing +
      (PricingEngine.calculate_project_cost duration_minutes include_script
        include_storyboard quality rush).storyboarding ∧
    (Pricing.calculate_project_cost duration_minutes include_script
        include_storyboard quality).subtotal =
      (Pricing.calculate_project_cost duration_minutes include_script
        include_storyboard quality).video +
      (Pricing.calculate_project_cost duration_minutes include_script
        include_storyboard quality).script +
      (Pricing.calculate_project_cost duration_minutes include_script
        include_storyboard quality).storyboard := by
  refine ⟨rfl, rfl, rfl⟩

/-- C4 counterexample: at quality `"ultra"` (duration 1, no script, no
storyboard, no rush) the engine charges a quality fee of 0, not
`subtotal * (2.0 - 1) = 3` as the claimed multiplier table would give. -/
theorem quality_fee_ultra_counterexample :
    (PricingEngine.calculate_project_cost 1 false false "ultra" false).quality_fee ≠
      (PricingEngine.calculate_project_cost 1 false false "ultra" false).subtotal * (2 - 1) := by
  simp only [PricingEngine.calculate_project_cost, PricingEngine.video_per_minute,
    PricingEngine.storyboard_flat, PricingEngine.script_per_minute,
    String.reduceEq, if_false, Bool.false_eq_true]
  norm_num

/-- C4 (amended): `PricingEngine.calculate_project_cost` charges
`quality_fee = subtotal * (1.5 - 1)` when `quality = "premium"` and 0
for every other quality string (including `"ultra"`); the full table
{standard 1.0, premium 1.5, ultra 2.0} with unknown defaulting to 1.0
lives only in `pricing.py`, where `total - subtotal =
subtotal * (multiplier - 1)`. -/
theorem quality_fee_formulas (duration_minutes : ℤ)
    (include_script include_storyboard : Bool) (quality : String) (rush : Bool) :
    (PricingEngine.calculate_project_cost duration_minutes include_script
        include_storyboard quality rush).quality_fee =
      (if quality = "premium" then
        (PricingEngine.calculate_project_cost duration_minutes include_script
          include_storyboard quality rush).subtotal * (3/2 - 1)
      else 0) ∧
    (Pricing.calculate_project_cost duration_minutes include_script
        include_storyboard quality).total -
      (Pricing.calculate_project_cost duration_minutes include_script
        include_storyboard quality).subtotal =
      (Pricing.calculate_project_cost duration_minutes include_script
        include_storyboard quality).subtotal *
        ((Pricing.quality_multipliers quality).getD 1 - 1) := by
  constructor
  · by_cases h : quality = "premium" <;>
      simp [PricingEngine.calculate_project_cost, PricingEngine.premium_quality, h]
  · simp only [Pricing.calculate_project_cost]
    ring

/-- A row of the `transactions` table (`models.py` / `monetization_platform.py`):
`credits` is the signed credit delta. -/
structure Txn where
  user_id : String
  type : String
  credits : ℚ
  description : String
  deriving Repr, DecidableEq

/-- A row of the `users` table; `credits` is the cached balance. -/
structure DBUser where
  id : String
  email : String
  credits : ℚ
  referral_code : String
  referred_by : Option String
  deriving Repr, DecidableEq

/-- A row of the `projects` table (the fields the claims touch). -/
structure ProjectRow where
  id : String
  user_id : String
  title : String
  duration_minutes : ℤ
  status : String
  cost : ℚ
  deriving Repr, DecidableEq

/-- The relational store: users, projects and the append-only transaction
ledger. -/
structure DBState where
  users : List DBUser
  projects : List ProjectRow
  transactions : List Txn
  deriving Repr, DecidableEq

/-- The empty database. -/
def emptyDB : DBState := { users := [], projects := [], transactions := [] }

/-- `db.query(User).filter(User.id == uid).first()` on a list of rows. -/
def findUserL (users : List DBUser) (uid : String) : Option DBUser :=
  users.find? fun u => decide (u.id = uid)

/-- `db.query(User).filter(User.id == uid).first()`. -/
def findUser (s : DBState) (uid : String) : Option DBUser :=
  findUserL s.users uid

/-- The cached balance of a user (0 when the row is absent). -/
def balanceOf (s : DBState) (uid : String) : ℚ :=
  ((findUser s uid).map DBUser.credits).getD 0

/-- Sum of the signed credit deltas of the transactions of one user. -/
def txnSumL (txns : List Txn) (uid : String) : ℚ :=
  ((txns.filter fun t => decide (t.user_id = uid)).map Txn.credits).sum

/-- Sum of the transaction deltas of a user in a database state. -/
def txnSum (s : DBState) (uid : String) : ℚ :=
  txnSumL s.transactions uid

namespace crud

/-- Embedding of `crud.create_user` (`crud.py`, lines 31-41): a new user
row with 10.0 free signup credits; note that no Transaction row is
written. -/
def create_user (s : DBState) (uid email : String) : DBState :=
  { s with users := s.users ++
      [{ id := uid, email := email, credits := 10, referral_code := "", referred_by := none }] }

/-- Embedding of `crud.use_credits` (`crud.py`, lines 109-124): if the
user resolves, decrement the cached balance by `amount` and append one
usage transaction with delta `-amount`; otherwise do nothing. -/
def use_credits (s : DBState) (uid : String) (amount : ℚ) (description : String) : DBState :=
  match findUser s uid with
  | none => s
  | some _ =>
    { s with
      users := s.users.map fun u =>
        if u.id = uid then { u with credits := u.credits - amount } else u
      transactions := s.transactions ++
        [{ user_id := uid, type := "usage", credits := -amount, description := description }] }

/-- Embedding of `crud.add_credits` (`crud.py`, lines 126-142): if the
user resolves, increment the cached balance by `amount` and append one
purchase transaction with delta `amount`; otherwise do nothing. -/
def add_credits (s : DBState) (uid : String) (amount : ℚ) (description : String) : DBState :=
  match findUser s uid with
  | none => s
  | some _ =>
    { s with
      users := s.users.map fun u =>
        if u.id = uid then { u with credits := u.credits + amount } else u
      transactions := s.transactions ++
        [{ user_id := uid, type := "purchase", credits := amount, description := description }] }

/-- Embedding of `crud.create_project` (`crud.py`, lines 60-75): append a
new project row with status `"queued"` and the computed cost. -/
def create_project (s : DBState) (pid uid title : String) (duration : ℤ) (cost : ℚ) : DBState :=
  { s with projects := s.projects ++
      [{ id := pid, user_id := uid, title := title, duration_minutes := duration,
         status := "queued", cost := cost }] }

end crud

namespace CreditManager

/-- Embedding of `CreditManager.apply_credits`
(`film_platform/monetization_platform.py`, lines 225-246): raises
`ValueError("User not found")` when the user id does not resolve;
otherwise adds `credits` to the cached balance, appends exactly one
transaction row with that delta, and returns the new balance. -/
def apply_credits (s : DBState) (uid : String) (credits : ℚ)
    (transaction_type description : String) : Except String (DBState × ℚ) :=
  match findUser s uid with
  | none => .error "User not found"
  | some u =>
    .ok ({ s with
            users := s.users.map fun v =>
              if v.id = uid then { v with credits := v.credits + credits } else v
            transactions := s.transactions ++
              [{ user_id := uid, type := transaction_type, credits := credits,
                 description := description }] },
         u.credits + credits)

end CreditManager

/-- One invocation of a credit-moving ledger primitive from `crud.py`. -/
inductive LedgerOp where
  | use (uid : String) (amount : ℚ) (description : String)
  | add (uid : String) (amount : ℚ) (description : String)
  deriving Repr

/-- Run one ledger operation against the store. -/
def applyLedgerOp (s : DBState) : LedgerOp → DBState
  | .use uid amount d => crud.use_credits s uid amount d
  | .add uid amount d => crud.add_credits s uid amount d

/-- Run a sequence of ledger operations against the store. -/
def applyLedgerOps (s : DBState) (ops : List LedgerOp) : DBState :=
  ops.foldl applyLedgerOp s

/-- Looking a user up by id commutes with mapping an id-preserving
function over the user table. -/
theorem findUserL_map (users : List DBUser) (f : DBUser → DBUser) (uid : String)
    (hf : ∀ u, (f u).id = u.id) :
    findUserL (users.map f) uid = (findUserL users uid).map f := by
  induction users with
  | nil => rfl
  | cons u us ih =>
    simp only [findUserL, List.map_cons] at *
    by_cases h : u.id = uid
    · rw [List.find?_cons_of_pos _ (by simp [hf u, h]),
        List.find?_cons_of_pos _ (by simp [h])]
      rfl
    · rw [List.find?_cons_of_neg _ (by simp [hf u, h]),
        List.find?_cons_of_neg _ (by simp [h])]
      exact ih

/-- A found user has the id that was searched for. -/
theorem findUserL_id_of_eq_some {users : List DBUser} {uid : String} {u : DBUser}
    (h : findUserL users uid = some u) : u.id = uid := by
  have h' : List.find? (fun v => decide (v.id = uid)) users = some u := h
  have h2 := List.find?_some h'
  simp only [decide_eq_true_eq] at h2
  exact h2

/-- With no duplicate ids, looking up the id of a member row yields that
row. -/
theorem findUserL_eq_some_of_mem_nodup {users : List DBUser} {a : DBUser}
    (ha : a ∈ users) (hnd : (users.map DBUser.id).Nodup) :
    findUserL users a.id = some a := by
  induction users with
  | nil => cases ha
  | cons u us ih =>
    simp only [List.map_cons, List.nodup_cons] at hnd
    rcases List.mem_cons.mp ha with rfl | hmem
    · simp only [findUserL]
      exact List.find?_cons_of_pos _ (by simp)
    · by_cases h : u.id = a.id
      · exact absurd (h ▸ List.mem_map.mpr ⟨a, hmem, rfl⟩) hnd.1
      · simp only [findUserL] at ih ⊢
        rw [List.find?_cons_of_neg _ (by simp [h])]
        exact ih hmem hnd.2

/-- Transaction sums distribute over appending ledger rows. -/
theorem txnSumL_append (l1 l2 : List Txn) (uid : String) :
    txnSumL (l1 ++ l2) uid = txnSumL l1 uid + txnSumL l2 uid := by
  simp [txnSumL, List.filter_append]

/-- Transaction sum of a single ledger row. -/
theorem txnSumL_single (t : Txn) (uid : String) :
    txnSumL [t] uid = if t.user_id = uid then t.credits else 0 := by
  by_cases h : t.user_id = uid <;> simp [txnSumL, List.filter_cons, h]

/-- `crud.use_credits` moves the cached balance and the transaction sum
of every user by the same quantity. -/
theorem use_credits_diff (s : DBState) (uid : String) (amount : ℚ) (d : String)
    (uid' : String) :
    balanceOf (crud.use_credits s uid amount d) uid' -
      txnSum (crud.use_credits s uid amount d) uid' =
      balanceOf s uid' - txnSum s uid' := by
  rcases hu : findUserL s.users uid with _ | u
  · simp [crud.use_credits, findUser, hu]
  · have hkey : ∀ v : DBUser,
        ((if v.id = uid then { v with credits := v.credits - amount } else v) : DBUser).id = v.id := by
      intro v; by_cases h : v.id = uid <;> simp [h]
    simp only [crud.use_credits, findUser, hu, balanceOf, txnSum]
    rw [findUserL_map _ _ _ hkey, txnSumL_append, txnSumL_single]
    rcases hv : findUserL s.users uid' with _ | v
    · have hne : ¬uid = uid' := by
        intro h; rw [h] at hu; rw [hu] at hv; cases hv
      simp [hne]
    · have hid : v.id = uid' := findUserL_id_of_eq_some hv
      by_cases h : uid' = uid
      · subst h
        rw [hu] at hv; cases hv
        simp [hid]
        try ring
      · have hne : ¬v.id = uid := by rw [hid]; exact h
        simp [hne, Ne.symm h]

/-- `crud.add_credits` moves the cached balance and the transaction sum
of every user by the same quantity. -/
theorem add_credits_diff (s : DBState) (uid : String) (amount : ℚ) (d : String)
    (uid' : String) :
    balanceOf (crud.add_credits s uid amount d) uid' -
      txnSum (crud.add_credits s uid amount d) uid' =
      balanceOf s uid' - txnSum s uid' := by
  rcases hu : findUserL s.users uid with _ | u
  · simp [crud.add_credits, findUser, hu]
  · have hkey : ∀ v : DBUser,
        ((if v.id = uid then { v with credits := v.credits + amount } else v) : DBUser).id = v.id := by
      intro v; by_cases h : v.id = uid <;> simp [h]
    simp only [crud.add_credits, findUser, hu, balanceOf, txnSum]
    rw [findUserL_map _ _ _ hkey, txnSumL_append, txnSumL_single]
    rcases hv : findUserL s.users uid' with _ | v
    · have hne : ¬uid = uid' := by
        intro h; rw [h] at hu; rw [hu] at hv; cases hv
      simp [hne]
    · have hid : v.id = uid' := findUserL_id_of_eq_some hv
      by_cases h : uid' = uid
      · subst h
        rw [hu] at hv; cases hv
        simp [hid]
        try ring
      · have hne : ¬v.id = uid := by rw [hid]; exact h
        simp [hne, Ne.symm h]

/-- Any single ledger operation preserves balance minus transaction sum
for every user. -/
theorem applyLedgerOp_diff (s : DBState) (op : LedgerOp) (uid' : String) :
    balanceOf (applyLedgerOp s op) uid' - txnSum (applyLedgerOp s op) uid' =
      balanceOf s uid' - txnSum s uid' := by
  cases op with
  | use uid a d => exact use_credits_diff s uid a d uid'
  | add uid a d => exact add_credits_diff s uid a d uid'

/-- Any sequence of ledger operations preserves balance minus
transaction sum for every user. -/
theorem applyLedgerOps_diff (s : DBState) (ops : List LedgerOp) (uid' : String) :
    balanceOf (applyLedgerOps s ops) uid' - txnSum (applyLedgerOps s ops) uid' =
      balanceOf s uid' - txnSum s uid' := by
  induction ops generalizing s with
  | nil => rfl
  | cons op ops ih =>
    have h1 : applyLedgerOps s (op :: ops) = applyLedgerOps (applyLedgerOp s op) ops := rfl
    rw [h1, ih (applyLedgerOp s op), applyLedgerOp_diff]

/-- C3 counterexample: directly after `crud.create_user` on an empty
database the user's cached balance is the 10.0 signup credits, but no
Transaction row was written, so the sum of the user's transaction deltas
(0) does not equal the cached balance (10). -/
theorem signup_breaks_ledger_sum :
    txnSum (crud.create_user emptyDB "u1" "e") "u1" ≠
      balanceOf (crud.create_user emptyDB "u1" "e") "u1" := by
  simp only [txnSum, txnSumL, balanceOf, findUser, findUserL, crud.create_user, emptyDB]
  norm_num

/-- C3 (amended): every ledger operation (`crud.use_credits`,
`crud.add_credits`) changes the cached balance and the transaction-delta
sum by the same amount, so balance minus transaction sum is invariant
under any sequence of ledger operations for every user; consequently a
user created by `crud.create_user` (which grants 10.0 signup credits
with no Transaction row) satisfies balance = 10 + transaction sum after
any sequence of ledger operations, and the plain equality of balance and
transaction sum holds only when the non-ledger signup contribution is
zero. -/
theorem ledger_balance_consistency :
    (∀ (s : DBState) (ops : List LedgerOp) (uid : String),
      balanceOf (applyLedgerOps s ops) uid - txnSum (applyLedgerOps s ops) uid =
        balanceOf s uid - txnSum s uid) ∧
    (∀ (uid email : String) (ops : List LedgerOp),
      balanceOf (applyLedgerOps (crud.create_user emptyDB uid email) ops) uid =
        10 + txnSum (applyLedgerOps (crud.create_user emptyDB uid email) ops) uid) := by
  constructor
  · exact applyLedgerOps_diff
  · intro uid email ops
    have h := applyLedgerOps_diff (crud.create_user emptyDB uid email) ops uid
    have hb : balanceOf (crud.create_user emptyDB uid email) uid = 10 := by
      simp [balanceOf, findUser, findUserL, crud.create_user, emptyDB]
    have ht : txnSum (crud.create_user emptyDB uid email) uid = 0 := by
      simp [txnSum, txnSumL, crud.create_user, emptyDB]
    rw [hb, ht] at h
    linarith

/-- C5: `CreditManager.apply_credits` with a resolving user id appends
exactly one Transaction row carrying the given delta, moves the cached
balance by exactly that delta (positive or negative, with no
negative-balance check), and returns the new balance; with a
non-resolving id it fails with the user-not-found error. -/
theorem apply_credits_spec (s : DBState) (uid : String) (c : ℚ)
    (ttype d : String) :
    (∀ u, findUser s uid = some u →
      ∃ s', CreditManager.apply_credits s uid c ttype d = .ok (s', u.credits + c) ∧
        s'.transactions = s.transactions ++
          [{ user_id := uid, type := ttype, credits := c, description := d }] ∧
        balanceOf s' uid = balanceOf s uid + c ∧
        s'.projects = s.projects) ∧
    (findUser s uid = none →
      CreditManager.apply_credits s uid c ttype d = .error "User not found") := by
  constructor
  · intro u hu
    have hu' : findUserL s.users uid = some u := hu
    have hid : u.id = uid := findUserL_id_of_eq_some hu'
    have hkey : ∀ v : DBUser,
        ((if v.id = uid then { v with credits := v.credits + c } else v) : DBUser).id = v.id := by
      intro v; by_cases h : v.id = uid <;> simp [h]
    refine ⟨{ s with
        users := s.users.map fun v =>
          if v.id = uid then { v with credits := v.credits + c } else v
        transactions := s.transactions ++
          [{ user_id := uid, type := ttype, credits := c, description := d }] },
      ?_, rfl, ?_, rfl⟩
    · simp only [CreditManager.apply_credits, findUser, hu']
    · simp only [balanceOf, findUser]
      rw [findUserL_map _ _ _ hkey, hu']
      simp [hid]
  · intro hu
    have hu' : findUserL s.users uid = none := hu
    simp only [CreditManager.apply_credits, findUser, hu']

/-- A one-user database used to instantiate theorems with hypotheses. -/
def demoUser : DBUser :=
  { id := "u1", email := "a@b", credits := 5, referral_code := "rc1", referred_by := none }

/-- A concrete database holding only `demoUser`. -/
def demoDB : DBState := { users := [demoUser], projects := [], transactions := [] }

/-- C5 witness: `apply_credits` on a concrete database with user `"u1"`
at balance 5 and delta -7 (driving the balance negative, unchecked). -/
theorem apply_credits_spec_witness :
    (∃ s', CreditManager.apply_credits demoDB "u1" (-7) "usage" "d" =
        .ok (s', demoUser.credits + (-7)) ∧
      s'.transactions = demoDB.transactions ++
        [{ user_id := "u1", type := "usage", credits := -7, description := "d" }] ∧
      balanceOf s' "u1" = balanceOf demoDB "u1" + (-7) ∧
      s'.projects = demoDB.projects) ∧
    CreditManager.apply_credits emptyDB "u1" (-7) "usage" "d" = .error "User not found" :=
  ⟨(apply_credits_spec demoDB "u1" (-7) "usage" "d").1 demoUser (by decide),
   (apply_credits_spec emptyDB "u1" (-7) "usage" "d").2 rfl⟩

namespace MainAPI

/-- Embedding of the `POST /api/v1/projects` handler `create_project`
(`main.py`, lines 113-157): compute the cost with the `pricing.py`
calculator, reject with HTTP 402 when the authenticated user's cached
credits are below the total (before any write), otherwise create the
project row and debit the credits via `crud.use_credits`. The second
component is the HTTP error status, `none` meaning success. -/
def create_project_endpoint (s : DBState) (uid pid title : String)
    (duration_minutes : ℤ) (include_script include_storyboard : Bool)
    (quality : String) : DBState × Option ℕ :=
  match findUser s uid with
  | none => (s, some 401)
  | some current_user =>
    let cost := Pricing.calculate_project_cost duration_minutes include_script
      include_storyboard quality
    if current_user.credits < cost.total then
      (s, some 402)
    else
      let s1 := crud.create_project s pid uid title duration_minutes cost.total
      let s2 := crud.use_credits s1 uid cost.total ("Project: " ++ title)
      (s2, none)

end MainAPI

/-- C2: whenever the computed total cost exceeds the requesting user's
current credit balance, `create_project` answers with the
insufficient-credits error 402 and the database is returned unchanged:
no credits are debited and no project row is created, so the user's
balance and project list are exactly as before. -/
theorem insufficient_credits_rejected (s : DBState) (uid pid title : String)
    (duration_minutes : ℤ) (include_script include_storyboard : Bool)
    (quality : String) (current_user : DBUser)
    (hu : findUser s uid = some current_user)
    (hgt : (Pricing.calculate_project_cost duration_minutes include_script
        include_storyboard quality).total > current_user.credits) :
    MainAPI.create_project_endpoint s uid pid title duration_minutes
        include_script include_storyboard quality = (s, some 402) ∧
    balanceOf (MainAPI.create_project_endpoint s uid pid title duration_minutes
        include_script include_storyboard quality).1 uid = balanceOf s uid ∧
    (MainAPI.create_project_endpoint s uid pid title duration_minutes
        include_script include_storyboard quality).1.projects = s.projects ∧
    txnSum (MainAPI.create_project_endpoint s uid pid title duration_minutes
        include_script include_storyboard quality).1 uid = txnSum s uid := by
  have hu' : findUserL s.users uid = some current_user := hu
  have hmain : MainAPI.create_project_endpoint s uid pid title duration_minutes
      include_script include_storyboard quality = (s, some 402) := by
    simp only [MainAPI.create_project_endpoint, findUser, hu']
    rw [if_pos hgt]
  exact ⟨hmain, by rw [hmain], by rw [hmain], by rw [hmain]⟩

/-- C2 witness: a user with 5 credits requests a 60-minute standard
project (total 250), and the endpoint answers 402 with the database
unchanged. -/
theorem insufficient_credits_rejected_witness :
    MainAPI.create_project_endpoint demoDB "u1" "p1" "t" 60 true true "standard" =
        (demoDB, some 402) ∧
    balanceOf (MainAPI.create_project_endpoint demoDB "u1" "p1" "t" 60 true true
        "standard").1 "u1" = balanceOf demoDB "u1" ∧
    (MainAPI.create_project_endpoint demoDB "u1" "p1" "t" 60 true true
        "standard").1.projects = demoDB.projects ∧
    txnSum (MainAPI.create_project_endpoint demoDB "u1" "p1" "t" 60 true true
        "standard").1 "u1" = txnSum demoDB "u1" :=
  insufficient_credits_rejected demoDB "u1" "p1" "t" 60 true true "standard"
    demoUser (by decide)
    (by simp only [Pricing.calculate_project_cost, Pricing.quality_multipliers, demoUser]
        norm_num)

namespace Monetization

/-- `db.query(User).filter(User.email == email).first()`. -/
def findByEmail (users : List DBUser) (email : String) : Option DBUser :=
  users.find? fun u => decide (u.email = email)

/-- `db.query(User).filter(User.referral_code == code).first()`. -/
def findByReferralCode (users : List DBUser) (code : String) : Option DBUser :=
  users.find? fun u => decide (u.referral_code = code)

/-- Embedding of the `/api/register` handler
(`film_platform/monetization_platform.py`, lines 502-539): reject when
the email exists (second component `none` models the 400 error); the new
user row starts at the column default of 0.0 credits; when a referral
code is supplied and resolves to a referrer, the referrer gains 25 bonus
credits and the new user starts with 10 credits instead. The second
component carries the `credits` field of the response. -/
def register (s : DBState) (uid refcode : String) (email : String)
    (referral_code : Option String) : DBState × Option ℚ :=
  if (findByEmail s.users email).isSome then (s, none)
  else
    match referral_code with
    | some code =>
      match findByReferralCode s.users code with
      | some referrer =>
        ({ s with users :=
            (s.users.map fun u =>
              if u.id = referrer.id then { u with credits := u.credits + 25 } else u) ++
            [{ id := uid, email := email, credits := 10, referral_code := refcode,
               referred_by := some code }] },
         some 10)
      | none =>
        ({ s with users := s.users ++
            [{ id := uid, email := email, credits := 0, referral_code := refcode,
               referred_by := some code }] },
         some 0)
    | none =>
      ({ s with users := s.users ++
          [{ id := uid, email := email, credits := 0, referral_code := refcode,
             referred_by := none }] },
       some 0)

end Monetization

/-- Looking a user up by id in a concatenated table checks the left
part first. -/
theorem findUserL_append (l1 l2 : List DBUser) (uid : String) :
    findUserL (l1 ++ l2) uid = (findUserL l1 uid).or (findUserL l2 uid) :=
  List.find?_append

/-- C9: registering with a referral code that belongs to an existing
user U1 raises U1's cached balance by the 25-credit referral bonus, and
the new user starts with 10 credits, which differs from the 0-credit
starting balance the same endpoint gives a user who registers without a
referral code. -/
theorem referral_registration_bonus (s : DBState) (uid refcode email code : String)
    (referrer : DBUser)
    (hnd : (s.users.map DBUser.id).Nodup)
    (hemail : Monetization.findByEmail s.users email = none)
    (href : Monetization.findByReferralCode s.users code = some referrer) :
    balanceOf (Monetization.register s uid refcode email (some code)).1 referrer.id =
      balanceOf s referrer.id + 25 ∧
    balanceOf s referrer.id = referrer.credits ∧
    (Monetization.register s uid refcode email (some code)).2 = some 10 ∧
    (Monetization.register s uid refcode email none).2 = some 0 ∧
    (10 : ℚ) ≠ 0 := by
  have href' : List.find? (fun u => decide (u.referral_code = code)) s.users = some referrer :=
    href
  have hmem : referrer ∈ s.users := List.mem_of_find?_eq_some href'
  have hfind : findUserL s.users referrer.id = some referrer :=
    findUserL_eq_some_of_mem_nodup hmem hnd
  have hbal : balanceOf s referrer.id = referrer.credits := by
    simp [balanceOf, findUser, hfind]
  have hkey : ∀ v : DBUser,
      ((if v.id = referrer.id then { v with credits := v.credits + 25 } else v) : DBUser).id =
        v.id := by
    intro v; by_cases h : v.id = referrer.id <;> simp [h]
  refine ⟨?_, hbal, ?_, ?_, by norm_num⟩
  · simp only [Monetization.register, hemail, Option.isSome_none, Bool.false_eq_true,
      if_false, href]
    simp only [balanceOf, findUser]
    rw [findUserL_append]
    rw [show findUserL (s.users.map fun u =>
        if u.id = referrer.id then { u with credits := u.credits + 25 } else u) referrer.id =
      (findUserL s.users referrer.id).map fun u =>
        if u.id = referrer.id then { u with credits := u.credits + 25 } else u
      from findUserL_map _ _ _ hkey]
    rw [hfind]
    simp
  · simp only [Monetization.register, hemail, Option.isSome_none, Bool.false_eq_true,
      if_false, href]
  · simp only [Monetization.register, hemail, Option.isSome_none, Bool.false_eq_true,
      if_false]

/-- C9 witness: on a database holding one user `"u1"` with referral code
`"rc1"` and balance 5, registering `"u2"` with that referral code raises
the balance of `"u1"` to 30 and starts the new user at 10 credits; a
registration without a referral code starts at 0. -/
theorem referral_registration_bonus_witness :
    balanceOf (Monetization.register demoDB "u2" "rc2" "n@x" (some "rc1")).1 demoUser.id =
      balanceOf demoDB demoUser.id + 25 ∧
    balanceOf demoDB demoUser.id = demoUser.credits ∧
    (Monetization.register demoDB "u2" "rc2" "n@x" (some "rc1")).2 = some 10 ∧
    (Monetization.register demoDB "u2" "rc2" "n@x" none).2 = some 0 ∧
    (10 : ℚ) ≠ 0 :=
  referral_registration_bonus demoDB "u2" "rc2" "n@x" "rc1" demoUser
    (by decide) (by decide) (by decide)

/-- Outcomes of the external stages invoked by the background task:
whether script generation, storyboard generation, the video call, and
the upload each return without raising, and the `success` flag of the
video result. -/
structure PipelineEnv where
  script_ok : Bool
  storyboard_ok : Bool
  film_call_ok : Bool
  film_success : Bool
  upload_ok : Bool
  deriving Repr, DecidableEq

/-- The `try` block of `generate_film_async` (`main.py`, lines 257-290).
Python local variables `script` and `storyboard` are modelled as
`Option Unit`: bound only inside the corresponding `if` branch, and
referencing an unbound local raises `NameError` (an `Except.error`),
exactly as CPython does. `.ok status` is the terminal project status the
block reaches without raising. -/
def pipelineBody (include_script include_storyboard : Bool)
    (env : PipelineEnv) : Except String String :=
  match (if include_script then
          (if env.script_ok then Except.ok (some ()) else Except.error "Script generation failed")
         else Except.ok (none : Option Unit)) with
  | .error e => .error e
  | .ok script =>
    match (if include_storyboard then
            (match script with
             | none => Except.error "NameError: name script is not defined"
             | some _ =>
               if env.storyboard_ok then Except.ok (some ())
               else Except.error "Storyboard generation failed")
           else Except.ok (none : Option Unit)) with
    | .error e => .error e
    | .ok storyboard =>
      match storyboard with
      | none => .error "NameError: name storyboard is not defined"
      | some _ =>
        if env.film_call_ok then
          if env.film_success then
            if env.upload_ok then .ok "complete" else .error "File upload failed"
          else .ok "failed"
        else .error "Film generation call failed"

/-- Embedding of `generate_film_async` (`main.py`, lines 257-290): the
final status of the project after the background task runs, with the
`except` clause mapping any raised error to `crud.fail_project`, which
stores status `"failed"`. -/
def generate_film_async (include_script include_storyboard : Bool)
    (env : PipelineEnv) : String :=
  match pipelineBody include_script include_storyboard env with
  | .ok status => status
  | .error _ => "failed"

/-- C10: unless both `include_script` and `include_storyboard` are
requested, `generate_film_async` always ends with project status
`"failed"` (an unbound local is referenced before the video stage), so a
project can reach status `"complete"` only when both options are true. -/
theorem pipeline_requires_both_flags (include_script include_storyboard : Bool)
    (env : PipelineEnv) :
    (¬(include_script = true ∧ include_storyboard = true) →
      generate_film_async include_script include_storyboard env = "failed") ∧
    (generate_film_async include_script include_storyboard env = "complete" →
      include_script = true ∧ include_storyboard = true) := by
  rcases env with ⟨so, bo, fo, fs, uo⟩
  cases include_script <;> cases include_storyboard <;>
    cases so <;> cases bo <;> cases fo <;> cases fs <;> cases uo <;> decide

/-- C10 witness: with the script flag off (storyboard on, all external
stages succeeding) the task ends in status `"failed"`, and a fully
successful run with both flags on ends `"complete"`. -/
theorem pipeline_requires_both_flags_witness :
    generate_film_async false true
        { script_ok := true, storyboard_ok := true, film_call_ok := true,
          film_success := true, upload_ok := true } = "failed" ∧
    (generate_film_async true true
        { script_ok := true, storyboard_ok := true, film_call_ok := true,
          film_success := true, upload_ok := true } = "complete" →
      true = true ∧ true = true) :=
  ⟨(pipeline_requires_both_flags false true
      { script_ok := true, storyboard_ok := true, film_call_ok := true,
        film_success := true, upload_ok := true }).1 (by simp),
   (pipeline_requires_both_flags true true
      { script_ok := true, storyboard_ok := true, film_call_ok := true,
        film_success := true, upload_ok := true }).2⟩

/-- A row of the `gpu_nodes` table
(`film_platform/monetization_platform.py`, lines 72-85). -/
structure GPUNode where
  id : String
  provider : String
  instance_id : String
  gpu_type : String
  hourly_cost : ℚ
  status : String
  current_project_id : Option String
  performance_score : ℚ
  region : String
  deriving Repr, DecidableEq

/-- One instance record returned by a provider `launch_instances` call. -/
structure ProviderInstance where
  instance_id : String
  gpu_type : String
  hourly_cost : ℚ
  region : String
  deriving Repr, DecidableEq

namespace Providers

/-- Embedding of `VastAIProvider.launch_instances` (lines 439-449):
returns `count` instances; `ctr` supplies the fresh part of each
instance id (modelling `secrets.token_hex`). -/
def vast_launch (ctr count : ℕ) (gpu_type : String) : List ProviderInstance :=
  (List.range count).map fun i =>
    { instance_id := "vast_" ++ toString (ctr + i), gpu_type := gpu_type,
      hourly_cost := if gpu_type = "rtx4090" then 35/100 else 99/100,
      region := "us-west-2" }

/-- Embedding of `RunPodProvider.launch_instances` (lines 417-429). -/
def runpod_launch (ctr count : ℕ) (gpu_type : String) : List ProviderInstance :=
  (List.range count).map fun i =>
    { instance_id := "runpod_" ++ toString (ctr + i), gpu_type := gpu_type,
      hourly_cost := if gpu_type = "rtx4090" then 44/100 else 119/100,
      region := "us-east-1" }

/-- Embedding of `LambdaLabsProvider.launch_instances` (lines 457-467). -/
def lambda_launch (ctr count : ℕ) (gpu_type : String) : List ProviderInstance :=
  (List.range count).map fun i =>
    { instance_id := "lambda_" ++ toString (ctr + i), gpu_type := gpu_type,
      hourly_cost := if gpu_type = "rtx4090" then 50/100 else 149/100,
      region := "us-central-1" }

/-- Dispatch `self.providers[provider_name].launch_instances`. -/
def launch (provider : String) (ctr count : ℕ) (gpu_type : String) : List ProviderInstance :=
  if provider = "vast" then vast_launch ctr count gpu_type
  else if provider = "runpod" then runpod_launch ctr count gpu_type
  else lambda_launch ctr count gpu_type

/-- The rtx4090 hourly cost charged by each provider, mirroring the
dispatch order of `launch`. -/
def providerRtxCost (provider : String) : ℚ :=
  if provider = "vast" then 35/100
  else if provider = "runpod" then 44/100
  else 50/100

end Providers

namespace GPUOrchestrator

/-- `db.query(GPUNode).filter(GPUNode.status == "available").count()`. -/
def availableCount (nodes : List GPUNode) : ℕ :=
  (nodes.filter fun nd => decide (nd.status = "available")).length

/-- The provider iteration order of `scale_up`
(`monetization_platform.py`, line 308): cheapest first. -/
def providerOrder : List String := ["vast", "runpod", "lambda"]

/-- The provider loop of `scale_up` (lines 308-330): for each provider
in turn, while nodes are still needed, launch `min(nodes_to_add, 5)`
instances and persist one `available` GPUNode per launched instance.
Returns (new node rows, their ids, next fresh counter). -/
def launchLoop : List String → ℕ → ℕ → List GPUNode × List String × ℕ
  | [], ctr, _ => ([], [], ctr)
  | p :: ps, ctr, toAdd =>
    if toAdd = 0 then ([], [], ctr)
    else
      let launched := Providers.launch p ctr (min toAdd 5) "rtx4090"
      let newNodes := launched.map fun inst =>
        { id := "node_" ++ inst.instance_id, provider := p,
          instance_id := inst.instance_id, gpu_type := inst.gpu_type,
          hourly_cost := inst.hourly_cost, status := "available",
          current_project_id := none, performance_score := 1,
          region := inst.region }
      let rest := launchLoop ps (ctr + launched.length) (toAdd - launched.length)
      (newNodes ++ rest.1, newNodes.map GPUNode.id ++ rest.2.1, rest.2.2)

/-- Embedding of `GPUOrchestrator.scale_up` (lines 294-333): nothing
happens when the count of `available` nodes already meets the required
capacity; otherwise the deficit is filled from the providers in
`providerOrder`. -/
def scale_up (nodes : List GPUNode) (ctr required_capacity : ℕ) :
    List GPUNode × List String × ℕ :=
  let current_nodes := availableCount nodes
  if required_capacity ≤ current_nodes then (nodes, [], ctr)
  else
    let r := launchLoop providerOrder ctr (required_capacity - current_nodes)
    (nodes ++ r.1, r.2.1, r.2.2)

/-- The filter of the idle-node query in `scale_down` (lines 339-342):
status `available` and no current project. -/
def idleFilter (nd : GPUNode) : Bool :=
  decide (nd.status = "available") && nd.current_project_id.isNone

/-- Stable insertion for `order_by(GPUNode.hourly_cost.desc())`. -/
def insertByCostDesc (nd : GPUNode) : List GPUNode → List GPUNode
  | [] => [nd]
  | x :: xs =>
    if x.hourly_cost < nd.hourly_cost then nd :: x :: xs
    else x :: insertByCostDesc nd xs

/-- Stable sort by descending hourly cost. -/
def sortByCostDesc (l : List GPUNode) : List GPUNode :=
  l.foldr insertByCostDesc []

/-- The query of `scale_down` (lines 339-342): idle nodes, most
expensive first, limited to `excess_capacity` rows. -/
def idleSelection (nodes : List GPUNode) (excess_capacity : ℕ) : List GPUNode :=
  (sortByCostDesc (nodes.filter idleFilter)).take excess_capacity

/-- Embedding of `GPUOrchestrator.scale_down` (lines 335-352): for each
selected idle node, mark it `terminated` only when the provider
`terminate_instance` call (whose boolean outcome is `termOk` per
instance id) succeeds. Returns the updated table and the terminated
node ids. -/
def scale_down (nodes : List GPUNode) (excess_capacity : ℕ)
    (termOk : String → Bool) : List GPUNode × List String :=
  let idle_nodes := idleSelection nodes excess_capacity
  let terminated := (idle_nodes.filter fun nd => termOk nd.instance_id).map GPUNode.id
  (nodes.map fun nd =>
      if nd.id ∈ terminated then { nd with status := "terminated" } else nd,
   terminated)

/-- The duration-derived GPU tier of `assign_project_to_node`
(lines 358-364). -/
def gpuTypesFor (duration_minutes : ℤ) : List String :=
  if duration_minutes ≤ 30 then ["rtx4090", "a100_40gb"]
  else if duration_minutes ≤ 90 then ["a100_40gb", "a100_80gb"]
  else ["a100_80gb", "h100"]

/-- The filter of the node query in `assign_project_to_node`
(lines 367-369): available and of a matching GPU class. -/
def assignFilter (gpu_types : List String) (nd : GPUNode) : Bool :=
  decide (nd.status = "available") && gpu_types.contains nd.gpu_type

/-- `b` sorts strictly before `a` under
`order_by(performance_score.desc(), hourly_cost.asc())`. -/
def betterNode (b a : GPUNode) : Bool :=
  decide (a.performance_score < b.performance_score) ||
    (decide (b.performance_score = a.performance_score) &&
      decide (b.hourly_cost < a.hourly_cost))

/-- `.first()` of the ordered query: the earliest best row. -/
def pickBest : List GPUNode → Option GPUNode
  | [] => none
  | x :: xs =>
    match pickBest xs with
    | none => some x
    | some y => if betterNode y x then some y else some x

/-- Result of one `assign_project_to_node` call: the updated node table,
the assigned node id (`none` models returning `None`), and the argument
list of the `scale_up` calls it made. -/
structure AssignResult where
  nodes : List GPUNode
  assigned : Option String
  scale_up_calls : List ℕ
  deriving Repr

/-- Embedding of `GPUOrchestrator.assign_project_to_node`
(lines 354-385): when no available node of a matching class exists it
calls `scale_up(1)` once and returns no assignment; otherwise the chosen
node becomes `busy` and is stamped with the project id. -/
def assign_project_to_node (nodes : List GPUNode) (ctr : ℕ) (project_id : String)
    (duration_minutes : ℤ) : AssignResult :=
  let gpu_types := gpuTypesFor duration_minutes
  match pickBest (nodes.filter (assignFilter gpu_types)) with
  | none =>
    let r := scale_up nodes ctr 1
    { nodes := r.1, assigned := none, scale_up_calls := [1] }
  | some node =>
    { nodes := nodes.map fun x =>
        if x.id = node.id then
          { x with status := "busy", current_project_id := some project_id }
        else x,
      assigned := some node.id,
      scale_up_calls := [] }

end GPUOrchestrator

/-- `gpu_nodes` lookup by primary key. -/
def findNode (nodes : List GPUNode) (nid : String) : Option GPUNode :=
  nodes.find? fun nd => decide (nd.id = nid)

/-- A node list is sorted by descending hourly cost. -/
def CostSortedDesc (l : List GPUNode) : Prop :=
  l.Pairwise fun a b => b.hourly_cost ≤ a.hourly_cost

/-- Membership in the descending-cost insertion. -/
theorem mem_insertByCostDesc {x nd : GPUNode} {l : List GPUNode} :
    x ∈ GPUOrchestrator.insertByCostDesc nd l ↔ x = nd ∨ x ∈ l := by
  induction l with
  | nil => simp [GPUOrchestrator.insertByCostDesc]
  | cons y ys ih =>
    simp only [GPUOrchestrator.insertByCostDesc]
    by_cases h : y.hourly_cost < nd.hourly_cost
    · simp [h]
    · simp only [h, if_false, List.mem_cons, ih]
      tauto

/-- Descending-cost insertion preserves sortedness. -/
theorem pairwise_insertByCostDesc {nd : GPUNode} {l : List GPUNode}
    (hl : CostSortedDesc l) :
    CostSortedDesc (GPUOrchestrator.insertByCostDesc nd l) := by
  induction l with
  | nil => simp [GPUOrchestrator.insertByCostDesc, CostSortedDesc]
  | cons y ys ih =>
    rw [CostSortedDesc, List.pairwise_cons] at hl
    simp only [GPUOrchestrator.insertByCostDesc]
    by_cases h : y.hourly_cost < nd.hourly_cost
    · rw [if_pos h]
      rw [CostSortedDesc, List.pairwise_cons]
      refine ⟨?_, List.pairwise_cons.mpr ⟨hl.1, hl.2⟩⟩
      intro b hb
      rcases List.mem_cons.mp hb with rfl | hb
      · exact le_of_lt h
      · exact le_trans (hl.1 b hb) (le_of_lt h)
    · rw [if_neg h]
      rw [CostSortedDesc, List.pairwise_cons]
      refine ⟨?_, ih hl.2⟩
      intro b hb
      rcases mem_insertByCostDesc.mp hb with rfl | hb
      · exact not_lt.mp h
      · exact hl.1 b hb

/-- Membership in the descending-cost sort. -/
theorem mem_sortByCostDesc {x : GPUNode} {l : List GPUNode} :
    x ∈ GPUOrchestrator.sortByCostDesc l ↔ x ∈ l := by
  induction l with
  | nil => simp [GPUOrchestrator.sortByCostDesc]
  | cons y ys ih =>
    simp only [GPUOrchestrator.sortByCostDesc, List.foldr_cons] at *
    rw [mem_insertByCostDesc, ih]
    simp

/-- The descending-cost sort sorts. -/
theorem sortByCostDesc_sorted (l : List GPUNode) :
    CostSortedDesc (GPUOrchestrator.sortByCostDesc l) := by
  induction l with
  | nil => exact List.Pairwise.nil
  | cons y ys ih => exact pairwise_insertByCostDesc ih

/-- Selected idle nodes come from the table. -/
theorem idleSelection_subset {nodes : List GPUNode} {k : ℕ} {nd : GPUNode}
    (h : nd ∈ GPUOrchestrator.idleSelection nodes k) : nd ∈ nodes :=
  List.mem_of_mem_filter (mem_sortByCostDesc.mp (List.take_subset k _ h))

/-- Selected idle nodes pass the idle filter. -/
theorem idleSelection_idle {nodes : List GPUNode} {k : ℕ} {nd : GPUNode}
    (h : nd ∈ GPUOrchestrator.idleSelection nodes k) :
    GPUOrchestrator.idleFilter nd = true :=
  List.of_mem_filter (mem_sortByCostDesc.mp (List.take_subset k _ h))

/-- At most `k` idle nodes are selected. -/
theorem idleSelection_length (nodes : List GPUNode) (k : ℕ) :
    (GPUOrchestrator.idleSelection nodes k).length ≤ k := by
  rw [GPUOrchestrator.idleSelection, List.length_take]
  exact min_le_left _ _

/-- The idle selection is ordered by highest hourly cost first. -/
theorem idleSelection_sorted (nodes : List GPUNode) (k : ℕ) :
    CostSortedDesc (GPUOrchestrator.idleSelection nodes k) :=
  List.Pairwise.sublist (List.take_sublist k _) (sortByCostDesc_sorted _)

/-- With no duplicate ids, two member rows with the same id coincide. -/
theorem gpu_eq_of_mem_id {l : List GPUNode} {a b : GPUNode}
    (ha : a ∈ l) (hb : b ∈ l) (hid : a.id = b.id)
    (hnd : (l.map GPUNode.id).Nodup) : a = b := by
  induction l with
  | nil => cases ha
  | cons x xs ih =>
    simp only [List.map_cons, List.nodup_cons] at hnd
    rcases List.mem_cons.mp ha with rfl | ha' <;> rcases List.mem_cons.mp hb with rfl | hb'
    · rfl
    · exact absurd (by rw [hid]; exact List.mem_map.mpr ⟨b, hb', rfl⟩) hnd.1
    · exact absurd (by rw [← hid]; exact List.mem_map.mpr ⟨a, ha', rfl⟩) hnd.1
    · exact ih ha' hb' hnd.2

/-- A pointwise property of a map over a list, as a `Forall₂`. -/
theorem forall₂_map_self {α : Type} (l : List α) (f : α → α) (P : α → α → Prop)
    (h : ∀ x ∈ l, P x (f x)) : List.Forall₂ P l (l.map f) := by
  induction l with
  | nil => exact List.Forall₂.nil
  | cons x xs ih =>
    exact List.Forall₂.cons (h x (List.mem_cons_self x xs))
      (ih fun y hy => h y (List.mem_cons_of_mem x hy))

/-- C6: `scale_down` selects only nodes with status `"available"` and no
`current_project_id` (at most `excess_capacity` of them, ordered by
highest hourly cost first); row by row, a node is changed only by
setting status `"terminated"`, and only when the provider termination
call succeeded for an idle selected node — in particular a node whose
`current_project_id` is set, or whose termination call failed, is left
unchanged. -/
theorem scale_down_safety (nodes : List GPUNode) (excess_capacity : ℕ)
    (termOk : String → Bool) (hnd : (nodes.map GPUNode.id).Nodup) :
    (∀ nd ∈ GPUOrchestrator.idleSelection nodes excess_capacity,
        nd.status = "available" ∧ nd.current_project_id = none) ∧
    (GPUOrchestrator.idleSelection nodes excess_capacity).length ≤ excess_capacity ∧
    CostSortedDesc (GPUOrchestrator.idleSelection nodes excess_capacity) ∧
    List.Forall₂ (fun old new =>
        (old.current_project_id ≠ none → new = old) ∧
        (termOk old.instance_id = false → new = old) ∧
        (new = old ∨ (termOk old.instance_id = true ∧
          GPUOrchestrator.idleFilter old = true ∧
          new = { old with status := "terminated" })))
      nodes (GPUOrchestrator.scale_down nodes excess_capacity termOk).1 := by
  refine ⟨?_, idleSelection_length nodes excess_capacity,
    idleSelection_sorted nodes excess_capacity, ?_⟩
  · intro nd h
    have hf := idleSelection_idle h
    simp only [GPUOrchestrator.idleFilter, Bool.and_eq_true, decide_eq_true_eq,
      Option.isNone_iff_eq_none] at hf
    exact hf
  · simp only [GPUOrchestrator.scale_down]
    have hmain : ∀ nd ∈ nodes,
        nd.id ∈ ((GPUOrchestrator.idleSelection nodes excess_capacity).filter
            fun x => termOk x.instance_id).map GPUNode.id →
        termOk nd.instance_id = true ∧ GPUOrchestrator.idleFilter nd = true := by
      intro nd hmem hin
      rcases List.mem_map.mp hin with ⟨nd', hnd', hideq⟩
      have h1 : termOk nd'.instance_id = true := by
        have h0 := List.of_mem_filter hnd'
        simpa using h0
      have h2 : nd' ∈ GPUOrchestrator.idleSelection nodes excess_capacity :=
        List.mem_of_mem_filter hnd'
      have h4 : nd' = nd := gpu_eq_of_mem_id (idleSelection_subset h2) hmem hideq hnd
      subst h4
      exact ⟨h1, idleSelection_idle h2⟩
    apply forall₂_map_self
    intro x hx
    by_cases hc : x.id ∈ ((GPUOrchestrator.idleSelection nodes excess_capacity).filter
        fun nd => termOk nd.instance_id).map GPUNode.id
    · have hx2 := hmain x hx hc
      rw [if_pos hc]
      refine ⟨?_, ?_, Or.inr ⟨hx2.1, hx2.2, rfl⟩⟩
      · intro hproj
        exfalso
        have hf := hx2.2
        simp only [GPUOrchestrator.idleFilter, Bool.and_eq_true, decide_eq_true_eq,
          Option.isNone_iff_eq_none] at hf
        exact hproj hf.2
      · intro hfalse
        rw [hx2.1] at hfalse
        cases hfalse
    · rw [if_neg hc]
      exact ⟨fun _ => rfl, fun _ => rfl, Or.inl rfl⟩

/-- A busy node serving project `"p9"`, for concrete instantiations. -/
def demoBusyNode : GPUNode :=
  { id := "g1", provider := "vast", instance_id := "i1", gpu_type := "rtx4090",
    hourly_cost := 1, status := "busy", current_project_id := some "p9",
    performance_score := 1, region := "us" }

/-- An idle available node, for concrete instantiations. -/
def demoIdleNode : GPUNode :=
  { id := "g2", provider := "runpod", instance_id := "i2", gpu_type := "a100_40gb",
    hourly_cost := 2, status := "available", current_project_id := none,
    performance_score := 1, region := "us" }

/-- C6 witness: a concrete table with one busy node (serving a project)
and one idle node, scaling down by 1 with every termination call
succeeding. -/
theorem scale_down_safety_witness :
    (∀ nd ∈ GPUOrchestrator.idleSelection [demoBusyNode, demoIdleNode] 1,
        nd.status = "available" ∧ nd.current_project_id = none) ∧
    (GPUOrchestrator.idleSelection [demoBusyNode, demoIdleNode] 1).length ≤ 1 ∧
    CostSortedDesc (GPUOrchestrator.idleSelection [demoBusyNode, demoIdleNode] 1) ∧
    List.Forall₂ (fun old new =>
        (old.current_project_id ≠ none → new = old) ∧
        ((fun _ : String => true) old.instance_id = false → new = old) ∧
        (new = old ∨ ((fun _ : String => true) old.instance_id = true ∧
          GPUOrchestrator.idleFilter old = true ∧
          new = { old with status := "terminated" })))
      [demoBusyNode, demoIdleNode]
      (GPUOrchestrator.scale_down [demoBusyNode, demoIdleNode] 1
        (fun _ => true)).1 :=
  scale_down_safety [demoBusyNode, demoIdleNode] 1 (fun _ => true) (by decide)

/-- The first row of the ordered query is a row of the queried list. -/
theorem pickBest_mem {l : List GPUNode} {y : GPUNode}
    (h : GPUOrchestrator.pickBest l = some y) : y ∈ l := by
  induction l with
  | nil => cases h
  | cons x xs ih =>
    simp only [GPUOrchestrator.pickBest] at h
    split at h
    · injection h with h2
      subst h2
      exact List.mem_cons_self _ _
    · rename_i z hz
      by_cases hb : GPUOrchestrator.betterNode z x = true
      · rw [if_pos hb] at h
        injection h with h2
        subst h2
        exact List.mem_cons_of_mem _ (ih hz)
      · rw [if_neg hb] at h
        injection h with h2
        subst h2
        exact List.mem_cons_self _ _

/-- Looking a node up by id commutes with mapping an id-preserving
function over the node table. -/
theorem findNode_map (nodes : List GPUNode) (f : GPUNode → GPUNode) (nid : String)
    (hf : ∀ x, (f x).id = x.id) :
    findNode (nodes.map f) nid = (findNode nodes nid).map f := by
  induction nodes with
  | nil => rfl
  | cons x xs ih =>
    simp only [findNode, List.map_cons] at *
    by_cases h : x.id = nid
    · rw [List.find?_cons_of_pos _ (by simp [hf x, h]),
        List.find?_cons_of_pos _ (by simp [h])]
      rfl
    · rw [List.find?_cons_of_neg _ (by simp [hf x, h]),
        List.find?_cons_of_neg _ (by simp [h])]
      exact ih

/-- With no duplicate ids, looking up the id of a member node yields
that node. -/
theorem findNode_eq_some_of_mem_nodup {nodes : List GPUNode} {a : GPUNode}
    (ha : a ∈ nodes) (hnd : (nodes.map GPUNode.id).Nodup) :
    findNode nodes a.id = some a := by
  induction nodes with
  | nil => cases ha
  | cons x xs ih =>
    simp only [List.map_cons, List.nodup_cons] at hnd
    rcases List.mem_cons.mp ha with rfl | hmem
    · simp only [findNode]
      exact List.find?_cons_of_pos _ (by simp)
    · by_cases h : x.id = a.id
      · exact absurd (h ▸ List.mem_map.mpr ⟨a, hmem, rfl⟩) hnd.1
      · simp only [findNode] at ih ⊢
        rw [List.find?_cons_of_neg _ (by simp [h])]
        exact ih hmem hnd.2

/-- C7: when `assign_project_to_node` finds no available node of a GPU
class matching the duration-derived tier, it makes exactly one
`scale_up(1)` call and returns no assignment instead of raising; when it
finds one, that node becomes `busy` with `current_project_id` stamped to
the project. -/
theorem assign_project_spec (nodes : List GPUNode) (ctr : ℕ) (project_id : String)
    (duration_minutes : ℤ) (hnd : (nodes.map GPUNode.id).Nodup) :
    (GPUOrchestrator.pickBest (nodes.filter
        (GPUOrchestrator.assignFilter (GPUOrchestrator.gpuTypesFor duration_minutes))) =
          none →
      (GPUOrchestrator.assign_project_to_node nodes ctr project_id
          duration_minutes).assigned = none ∧
      (GPUOrchestrator.assign_project_to_node nodes ctr project_id
          duration_minutes).scale_up_calls = [1]) ∧
    (∀ node, GPUOrchestrator.pickBest (nodes.filter
        (GPUOrchestrator.assignFilter (GPUOrchestrator.gpuTypesFor duration_minutes))) =
          some node →
      (GPUOrchestrator.assign_project_to_node nodes ctr project_id
          duration_minutes).assigned = some node.id ∧
      findNode (GPUOrchestrator.assign_project_to_node nodes ctr project_id
          duration_minutes).nodes node.id =
        some { node with status := "busy", current_project_id := some project_id }) := by
  constructor
  · intro h
    simp only [GPUOrchestrator.assign_project_to_node, h]
    exact ⟨trivial, trivial⟩
  · intro node h
    have hmem : node ∈ nodes := List.mem_of_mem_filter (pickBest_mem h)
    have hkey : ∀ x : GPUNode,
        ((if x.id = node.id then
            { x with status := "busy", current_project_id := some project_id }
          else x) : GPUNode).id = x.id := by
      intro x; by_cases hx : x.id = node.id <;> simp [hx]
    simp only [GPUOrchestrator.assign_project_to_node, h]
    refine ⟨trivial, ?_⟩
    rw [findNode_map _ _ _ hkey, findNode_eq_some_of_mem_nodup hmem hnd]
    simp

/-- C7 witness: on a table whose only node is busy, assigning a
10-minute project returns no assignment and records one `scale_up(1)`
call; on a table with one available `a100_40gb` node, a 40-minute
project is assigned to it and the node becomes busy. -/
theorem assign_project_spec_witness :
    ((GPUOrchestrator.assign_project_to_node [demoBusyNode] 0 "p1" 10).assigned = none ∧
      (GPUOrchestrator.assign_project_to_node [demoBusyNode] 0 "p1" 10).scale_up_calls =
        [1]) ∧
    ((GPUOrchestrator.assign_project_to_node [demoIdleNode] 0 "p1" 40).assigned =
        some demoIdleNode.id ∧
      findNode (GPUOrchestrator.assign_project_to_node [demoIdleNode] 0 "p1" 40).nodes
          demoIdleNode.id =
        some { demoIdleNode with status := "busy", current_project_id := some "p1" }) :=
  ⟨(assign_project_spec [demoBusyNode] 0 "p1" 10 (by decide)).1 (by decide),
   (assign_project_spec [demoIdleNode] 0 "p1" 40 (by decide)).2 demoIdleNode (by decide)⟩

/-- Each provider launch returns exactly `count` instances. -/
theorem launch_length (p : String) (ctr count : ℕ) (g : String) :
    (Providers.launch p ctr count g).length = count := by
  unfold Providers.launch Providers.vast_launch Providers.runpod_launch
    Providers.lambda_launch
  by_cases h1 : p = "vast"
  · simp [h1]
  · by_cases h2 : p = "runpod" <;> simp [h1, h2]

/-- Every launched rtx4090 instance carries the requested GPU type and
its provider's rtx4090 hourly cost. -/
theorem launch_fields (p : String) (ctr count : ℕ) (inst : ProviderInstance)
    (h : inst ∈ Providers.launch p ctr count "rtx4090") :
    inst.gpu_type = "rtx4090" ∧ inst.hourly_cost = Providers.providerRtxCost p := by
  unfold Providers.launch Providers.vast_launch Providers.runpod_launch
    Providers.lambda_launch at h
  by_cases h1 : p = "vast"
  · rw [if_pos h1] at h
    rcases List.mem_map.mp h with ⟨i, _, rfl⟩
    exact ⟨rfl, by simp [Providers.providerRtxCost, h1]⟩
  · rw [if_neg h1] at h
    by_cases h2 : p = "runpod"
    · rw [if_pos h2] at h
      rcases List.mem_map.mp h with ⟨i, _, rfl⟩
      exact ⟨rfl, by simp [Providers.providerRtxCost, h1, h2]⟩
    · rw [if_neg h2] at h
      rcases List.mem_map.mp h with ⟨i, _, rfl⟩
      exact ⟨rfl, by simp [Providers.providerRtxCost, h1, h2]⟩

/-- The provider loop creates `min toAdd (5 * number of providers)`
nodes. -/
theorem launchLoop_length (ps : List String) (ctr toAdd : ℕ) :
    (GPUOrchestrator.launchLoop ps ctr toAdd).1.length = min toAdd (5 * ps.length) := by
  induction ps generalizing ctr toAdd with
  | nil => simp [GPUOrchestrator.launchLoop]
  | cons p ps ih =>
    simp only [GPUOrchestrator.launchLoop]
    by_cases h : toAdd = 0
    · simp [h]
    · rw [if_neg h]
      simp only [List.length_append, List.length_map, launch_length, ih,
        List.length_cons]
      omega

/-- The returned id list matches the created node rows one for one. -/
theorem launchLoop_ids (ps : List String) (ctr toAdd : ℕ) :
    (GPUOrchestrator.launchLoop ps ctr toAdd).2.1 =
      (GPUOrchestrator.launchLoop ps ctr toAdd).1.map GPUNode.id := by
  induction ps generalizing ctr toAdd with
  | nil => rfl
  | cons p ps ih =>
    simp only [GPUOrchestrator.launchLoop]
    by_cases h : toAdd = 0
    · simp [h]
    · rw [if_neg h]
      simp [List.map_append, ih]

/-- Every node created by the provider loop is a fresh `available`
rtx4090 row from one of the given providers, at that provider's rtx4090
hourly cost. -/
theorem launchLoop_nodes (ps : List String) (ctr toAdd : ℕ) :
    ∀ nd ∈ (GPUOrchestrator.launchLoop ps ctr toAdd).1,
      nd.status = "available" ∧ nd.current_project_id = none ∧
      nd.gpu_type = "rtx4090" ∧ nd.provider ∈ ps ∧
      nd.hourly_cost = Providers.providerRtxCost nd.provider := by
  induction ps generalizing ctr toAdd with
  | nil => intro nd h; cases h
  | cons p ps ih =>
    intro nd h
    simp only [GPUOrchestrator.launchLoop] at h
    by_cases h0 : toAdd = 0
    · rw [if_pos h0] at h; cases h
    · rw [if_neg h0] at h
      rcases List.mem_append.mp h with h1 | h2
      · rcases List.mem_map.mp h1 with ⟨inst, hinst, rfl⟩
        have hf := launch_fields p ctr (min toAdd 5) inst hinst
        exact ⟨rfl, rfl, hf.1, List.mem_cons_self _ _, by simpa using hf.2⟩
      · have hrec := ih _ _ nd h2
        exact ⟨hrec.1, hrec.2.1, hrec.2.2.1,
          List.mem_cons_of_mem _ hrec.2.2.2.1, hrec.2.2.2.2⟩

/-- When the providers are listed in ascending rtx4090 cost order, the
nodes created by the provider loop have ascending hourly costs. -/
theorem launchLoop_sorted (ps : List String) (ctr toAdd : ℕ)
    (hps : ps.Pairwise fun p q =>
      Providers.providerRtxCost p ≤ Providers.providerRtxCost q) :
    (GPUOrchestrator.launchLoop ps ctr toAdd).1.Pairwise
      (fun a b => a.hourly_cost ≤ b.hourly_cost) := by
  induction ps generalizing ctr toAdd with
  | nil => exact List.Pairwise.nil
  | cons p ps ih =>
    rw [List.pairwise_cons] at hps
    simp only [GPUOrchestrator.launchLoop]
    by_cases h0 : toAdd = 0
    · simp [h0]
    · rw [if_neg h0]
      rw [List.pairwise_append]
      refine ⟨?_, ih _ _ hps.2, ?_⟩
      · apply List.pairwise_of_forall_mem_list
        intro a ha b hb
        rcases List.mem_map.mp ha with ⟨ia, hia, rfl⟩
        rcases List.mem_map.mp hb with ⟨ib, hib, rfl⟩
        have c1 := (launch_fields p ctr (min toAdd 5) ia hia).2
        have c2 := (launch_fields p ctr (min toAdd 5) ib hib).2
        simp [c1, c2]
      · intro a ha b hb
        rcases List.mem_map.mp ha with ⟨ia, hia, rfl⟩
        have c1 := (launch_fields p ctr (min toAdd 5) ia hia).2
        have hrec := launchLoop_nodes ps _ _ b hb
        have hle := hps.1 b.provider hrec.2.2.2.1
        rw [hrec.2.2.2.2]
        simpa [c1] using hle

/-- C8: `scale_up(n)` creates at most `n` new GPUNode rows (exactly
`min (n - available, 15)` when the available count is below `n`, and
none otherwise — partial success, fewer than `n`, is possible); each new
row is persisted as an `available` rtx4090 node from one of the
providers tried in ascending rtx4090-cost order vast, runpod, lambda,
so the new rows' hourly costs are non-decreasing; existing rows are
untouched and the returned ids are exactly the new rows' ids. -/
theorem scale_up_spec (nodes : List GPUNode) (ctr required_capacity : ℕ) :
    (GPUOrchestrator.scale_up nodes ctr required_capacity).2.1.length ≤
        required_capacity ∧
    (GPUOrchestrator.scale_up nodes ctr required_capacity).2.1.length =
      (if GPUOrchestrator.availableCount nodes < required_capacity
        then min (required_capacity - GPUOrchestrator.availableCount nodes) 15
        else 0) ∧
    (GPUOrchestrator.scale_up nodes ctr required_capacity).1.take nodes.length =
        nodes ∧
    (GPUOrchestrator.scale_up nodes ctr required_capacity).2.1 =
      ((GPUOrchestrator.scale_up nodes ctr required_capacity).1.drop
          nodes.length).map GPUNode.id ∧
    (∀ nd ∈ (GPUOrchestrator.scale_up nodes ctr required_capacity).1.drop
        nodes.length,
      nd.status = "available" ∧ nd.current_project_id = none ∧
        nd.gpu_type = "rtx4090" ∧ nd.provider ∈ GPUOrchestrator.providerOrder) ∧
    ((GPUOrchestrator.scale_up nodes ctr required_capacity).1.drop
        nodes.length).Pairwise (fun a b => a.hourly_cost ≤ b.hourly_cost) ∧
    GPUOrchestrator.providerOrder = ["vast", "runpod", "lambda"] := by
  by_cases hc : required_capacity ≤ GPUOrchestrator.availableCount nodes
  · simp only [GPUOrchestrator.scale_up, if_pos hc]
    refine ⟨by simp, ?_, by simp [List.take_length], ?_, ?_, ?_, rfl⟩
    · rw [if_neg (by omega)]
      rfl
    · simp [List.drop_length]
    · intro nd h
      rw [List.drop_length] at h
      cases h
    · simp [List.drop_length]
  · simp only [GPUOrchestrator.scale_up, if_neg hc]
    have hlen := launchLoop_length GPUOrchestrator.providerOrder ctr
      (required_capacity - GPUOrchestrator.availableCount nodes)
    have hids := launchLoop_ids GPUOrchestrator.providerOrder ctr
      (required_capacity - GPUOrchestrator.availableCount nodes)
    have hdrop : ((nodes ++ (GPUOrchestrator.launchLoop GPUOrchestrator.providerOrder ctr
        (required_capacity - GPUOrchestrator.availableCount nodes)).1).drop
          nodes.length) =
        (GPUOrchestrator.launchLoop GPUOrchestrator.providerOrder ctr
          (required_capacity - GPUOrchestrator.availableCount nodes)).1 :=
      List.drop_left nodes _
    refine ⟨?_, ?_, List.take_left nodes _, ?_, ?_, ?_, rfl⟩
    · rw [hids, List.length_map, hlen]
      simp only [GPUOrchestrator.providerOrder, List.length_cons, List.length_nil]
      omega
    · rw [if_pos (by omega), hids, List.length_map, hlen]
      rfl
    · rw [hdrop]
      exact hids
    · rw [hdrop]
      intro nd h
      have hrec := launchLoop_nodes GPUOrchestrator.providerOrder ctr
        (required_capacity - GPUOrchestrator.availableCount nodes) nd h
      exact ⟨hrec.1, hrec.2.1, hrec.2.2.1, hrec.2.2.2.1⟩
    · rw [hdrop]
      apply launchLoop_sorted
      simp only [GPUOrchestrator.providerOrder]
      refine List.Pairwise.cons ?_ (List.Pairwise.cons ?_ (List.Pairwise.cons
        (by intro b hb; cases hb) List.Pairwise.nil))
      · intro b hb
        rcases List.mem_cons.mp hb with rfl | hb
        · simp only [Providers.providerRtxCost, String.reduceEq, if_false, if_true]
          norm_num
        · rcases List.mem_cons.mp hb with rfl | hb
          · simp only [Providers.providerRtxCost, String.reduceEq, if_false, if_true]
            norm_num
          · cases hb
      · intro b hb
        rcases List.mem_cons.mp hb with rfl | hb
        · simp only [Providers.providerRtxCost, String.reduceEq, if_false, if_true]
          norm_num
        · cases hb

/-- C8 witness: scaling an empty node table up to capacity 7 (applying
the theorem at a concrete input: 5 vast nodes then 2 runpod nodes are
created, all available). -/
theorem scale_up_spec_witness :
    (GPUOrchestrator.scale_up [] 0 7).2.1.length ≤ 7 ∧
    (GPUOrchestrator.scale_up [] 0 7).2.1.length =
      (if GPUOrchestrator.availableCount [] < 7
        then min (7 - GPUOrchestrator.availableCount []) 15 else 0) ∧
    (GPUOrchestrator.scale_up [] 0 7).1.take (List.length ([] : List GPUNode)) = [] ∧
    (GPUOrchestrator.scale_up [] 0 7).2.1 =
      ((GPUOrchestrator.scale_up [] 0 7).1.drop
          (List.length ([] : List GPUNode))).map GPUNode.id ∧
    (∀ nd ∈ (GPUOrchestrator.scale_up [] 0 7).1.drop
        (List.length ([] : List GPUNode)),
      nd.status = "available" ∧ nd.current_project_id = none ∧
        nd.gpu_type = "rtx4090" ∧ nd.provider ∈ GPUOrchestrator.providerOrder) ∧
    ((GPUOrchestrator.scale_up [] 0 7).1.drop
        (List.length ([] : List GPUNode))).Pairwise
      (fun a b => a.hourly_cost ≤ b.hourly_cost) ∧
    GPUOrchestrator.providerOrder = ["vast", "runpod", "lambda"] :=
  scale_up_spec [] 0 7
